import Mathlib

/-!
Verification of the `resolve_builder` Python package (DaVinci Resolve
Flatpak build scripts) against its natural-language specification.

The definitions below are shallow embeddings of the functions in
`src/python/resolve_builder/`: `version.py`, `metainfo.py`, `download.py`
and `setup.py`.  Python machine-free integers are modelled as `Int`/`Nat`,
strings as `String`/`List Char`, fallible operations as `Except`/`Option`,
and the filesystem-manipulating steps of `setup.py` as explicit state
passing over small filesystem models.
-/

namespace ResolveBuilder

/-! ## version.py: the `Version` dataclass -/

/-- Embedding of `Version` from `version.py` (field order as in the source). -/
structure Version where
  major : Int
  minor : Int
  patch : Int
  beta : Int
  build : Int
deriving DecidableEq, Repr

/-- Embedding of `Version.__str__`:
stable (`beta == -1`) prints `major.minor.patch`, otherwise
`major.minor.patch.beta+build`. -/
def Version.toStr (v : Version) : String :=
  if v.beta = -1 then
    toString v.major ++ "." ++ toString v.minor ++ "." ++ toString v.patch
  else
    toString v.major ++ "." ++ toString v.minor ++ "." ++ toString v.patch
      ++ "." ++ toString v.beta ++ "+" ++ toString v.build

/-- Embedding of `Version.is_stable`. -/
def Version.isStable (v : Version) : Bool := v.beta = -1

/-- Embedding of `Version.is_beta`. -/
def Version.isBeta (v : Version) : Bool := v.beta ≠ -1

/-! ## metainfo.py: the beta-index regular expression

`parse_version_from_download` runs `re.match(r".*Beta (\d+)", title)`.
With Python semantics (no DOTALL), `.*` matches a newline-free prefix and,
being greedy, selects the *last* position `k` such that the prefix before
`k` contains no newline and the text at `k` is `"Beta "` followed by at
least one digit; the captured group is the maximal digit run there. -/

/-- Numeric value of a digit run, as Python's `int` on a decimal string. -/
def digitsVal (cs : List Char) : Nat :=
  cs.foldl (fun a c => 10 * a + (c.toNat - 48)) 0

/-- Whether the text begins with `"Beta "` followed by at least one digit;
if so, the value of the maximal digit run after `"Beta "` (the regex
capture at this position). -/
def betaAt : List Char → Option Nat
  | 'B' :: 'e' :: 't' :: 'a' :: ' ' :: rest =>
    if (rest.headD 'x').isDigit then some (digitsVal (rest.takeWhile Char.isDigit))
    else none
  | _ => none

/-- Scan for the last position whose prefix is newline-free and where
`betaAt` succeeds (the position chosen by the greedy `.*`). -/
def scanBeta : List Char → Option Nat
  | [] => none
  | c :: rest =>
    if c = '\n' then none
    else
      match scanBeta rest with
      | some n => some n
      | none => betaAt (c :: rest)

/-- The beta index computed by `parse_version_from_download`:
the regex capture when `re.match(r".*Beta (\d+)", title)` succeeds,
`-1` otherwise. -/
def parseBeta (title : List Char) : Int :=
  match scanBeta title with
  | some n => (n : Int)
  | none => -1

/-! ## metainfo.py: date handling

`build_metainfo` runs `datetime.strptime(date, "%d %b %Y")` and formats the
result with `strftime("%Y-%m-%d")`.  CPython's `_strptime` compiles the
format into a regular expression: `%d` is `3[01]|[12]\d|0[1-9]|[1-9]`,
`%b` is the case-insensitive alternation of the C-locale month
abbreviations, `%Y` is exactly four digits, a space matches one or more
whitespace characters, the whole string must be consumed, and the
resulting (year, month, day) must be a valid proleptic-Gregorian date with
year at least 1. -/

/-- Day-of-month token of `%d` (ordered regex alternation
`3[01]|[12]\d|0[1-9]|[1-9]`), returning the day and the rest. -/
def parseDay : List Char → Option (Nat × List Char)
  | c1 :: c2 :: rest =>
    if c1 = '3' && (c2 = '0' || c2 = '1') then some (30 + (c2.toNat - 48), rest)
    else if (c1 = '1' || c1 = '2') && c2.isDigit then
      some (10 * (c1.toNat - 48) + (c2.toNat - 48), rest)
    else if c1 = '0' && ('1' ≤ c2 && c2 ≤ '9') then some (c2.toNat - 48, rest)
    else if '1' ≤ c1 && c1 ≤ '9' then some (c1.toNat - 48, c2 :: rest)
    else none
  | [c1] => if '1' ≤ c1 && c1 ≤ '9' then some (c1.toNat - 48, []) else none
  | [] => none

/-- One-or-more whitespace (a literal space in the format string is
compiled to a one-or-more whitespace match). -/
def skipWs : List Char → Option (List Char)
  | c :: rest =>
    if c.isWhitespace then some (rest.dropWhile Char.isWhitespace) else none
  | [] => none

/-- The C-locale month abbreviations used by `%b`. -/
def monthAbbrevs : List (List Char) :=
  [['j','a','n'], ['f','e','b'], ['m','a','r'], ['a','p','r'],
   ['m','a','y'], ['j','u','n'], ['j','u','l'], ['a','u','g'],
   ['s','e','p'], ['o','c','t'], ['n','o','v'], ['d','e','c']]

/-- Month token of `%b`: a case-insensitive three-letter abbreviation,
returning the month number (1-12) and the rest. -/
def parseMon : List Char → Option (Nat × List Char)
  | c1 :: c2 :: c3 :: rest =>
    match (monthAbbrevs.indexOf [c1.toLower, c2.toLower, c3.toLower]) with
    | i => if i < 12 then some (i + 1, rest) else none
  | _ => none

/-- Year token of `%Y`: exactly four digits. -/
def parseYear4 : List Char → Option (Nat × List Char)
  | c1 :: c2 :: c3 :: c4 :: rest =>
    if c1.isDigit && c2.isDigit && c3.isDigit && c4.isDigit then
      some (1000 * (c1.toNat - 48) + 100 * (c2.toNat - 48)
              + 10 * (c3.toNat - 48) + (c4.toNat - 48), rest)
    else none
  | _ => none

/-- Gregorian leap-year test used by `datetime`'s date validation. -/
def isLeap (y : Nat) : Bool := y % 4 = 0 && (y % 100 ≠ 0 || y % 400 = 0)

/-- Days in a month, as validated by the `datetime` constructor. -/
def daysInMonth (m y : Nat) : Nat :=
  if m = 2 then (if isLeap y then 29 else 28)
  else if m = 4 || m = 6 || m = 9 || m = 11 then 30
  else 31

/-- `datetime.strptime(s, "%d %b %Y")` as a pure partial function:
returns `(year, month, day)` on success, `none` on `ValueError` (a failed
token, unconverted trailing data, or an invalid calendar date). -/
def strptimeDMY (cs : List Char) : Option (Nat × Nat × Nat) :=
  (parseDay cs).bind fun dr =>
  (skipWs dr.2).bind fun r2 =>
  (parseMon r2).bind fun mr =>
  (skipWs mr.2).bind fun r4 =>
  (parseYear4 r4).bind fun yr =>
  if yr.2 = [] && 1 ≤ yr.1 && dr.1 ≤ daysInMonth mr.1 yr.1 then
    some (yr.1, mr.1, dr.1)
  else none

/-- Zero-pad a number below 100 to two decimal digits (as `%m`/`%d` in
`strftime`). -/
def pad2 (n : Nat) : String :=
  if n < 100 then String.mk [Nat.digitChar (n / 10), Nat.digitChar (n % 10)]
  else toString n

/-- Zero-pad a number below 10000 to four decimal digits (as `%Y` in
`strftime`; `strptime`'s `%Y` only produces years of four digits). -/
def pad4 (n : Nat) : String :=
  if n < 10000 then
    String.mk [Nat.digitChar (n / 1000), Nat.digitChar (n / 100 % 10),
      Nat.digitChar (n / 10 % 10), Nat.digitChar (n % 10)]
  else toString n

/-- `strftime("%Y-%m-%d")` on a parsed date. -/
def formatIso (y m d : Nat) : String := pad4 y ++ "-" ++ pad2 m ++ "-" ++ pad2 d

/-- The date conversion done per catalog entry by `build_metainfo`:
`strptime("%d %b %Y")` then `strftime("%Y-%m-%d")`; `none` models the
caught `ValueError` (warn-and-skip path). -/
def parseDateIso (s : String) : Option String :=
  match strptimeDMY s.data with
  | none => none
  | some (y, m, d) => some (formatIso y m d)

/-- Capitalised month abbreviations, for rendering a "DD Mon YYYY" date
string. -/
def monthNames : List String :=
  ["Jan", "Feb", "Mar", "Apr", "May", "Jun",
   "Jul", "Aug", "Sep", "Oct", "Nov", "Dec"]

/-- A date string in "DD Mon YYYY" form (two-digit zero-padded day,
capitalised month abbreviation, four-digit year). -/
def renderDMY (d m y : Nat) : String :=
  pad2 d ++ " " ++ monthNames.getD (m - 1) "" ++ " " ++ pad4 y

/-! ## constants.py -/

/-- `APP_TAG` from `constants.py`. -/
def APP_TAG : String := "davinci-resolve"

/-! ## metainfo.py: catalog model and the `build_metainfo` loop -/

/-- A Linux download object inside a catalog entry's `urls["Linux"]` list,
with the fields read by `parse_version_from_download` (a `build` field is
kept in the model to state that the code does not read it). -/
structure LinuxDownload where
  product : Option String
  major : Int
  minor : Int
  releaseNum : Int
  releaseId : Int
  build : Int
  downloadTitle : String
deriving DecidableEq, Repr

/-- A catalog entry from `downloads.json`: `urlsLinux` is `some l` exactly
when `"Linux" in download["urls"]`, in which case `l` embeds the JSON list
`download["urls"]["Linux"]`. -/
structure Download where
  urlsLinux : Option (List LinuxDownload)
  desc : String
  date : String
deriving DecidableEq, Repr

/-- Embedding of `parse_version_from_download` (`metainfo.py`): the beta
index comes from the title regex, and the `Version` fields are mapped
`major→major`, `minor→minor`, `releaseNum→patch`, `releaseId→build`. -/
def parse_version_from_download (ld : LinuxDownload) : Version :=
  { major := ld.major
    minor := ld.minor
    patch := ld.releaseNum
    build := ld.releaseId
    beta := parseBeta ld.downloadTitle.data }

/-- Embedding of `format_release_entry`. -/
def format_release_entry (version : Version) (date description : String) : String :=
  "    <release version=\"" ++ version.toStr ++ "\" date=\"" ++ date ++ "\">\n"
    ++ "      <description>\n"
    ++ "        <p>" ++ description ++ "</p>\n"
    ++ "      </description>\n"
    ++ "    </release>"

/-- The `for download in parsed_response["downloads"]` loop of
`build_metainfo`, accumulating `latest_description` and `releases`.
`download["urls"]["Linux"][0]` on an empty list raises an `IndexError`
that propagates out of `build_metainfo`, modelled as `.error`. -/
def metainfoLoop : List Download → String → String → Except String (String × String)
  | [], latestDescription, releases => .ok (latestDescription, releases)
  | d :: rest, latestDescription, releases =>
    match d.urlsLinux with
    | none => metainfoLoop rest latestDescription releases
    | some l =>
      match l with
      | [] => .error "IndexError: list index out of range"
      | linuxDownload :: _ =>
        if linuxDownload.product ≠ some APP_TAG then
          metainfoLoop rest latestDescription releases
        else
          let description := d.desc
          let version := parse_version_from_download linuxDownload
          match parseDateIso d.date with
          | none => metainfoLoop rest latestDescription releases
          | some date =>
            let latestDescription' :=
              if latestDescription = "" then description else latestDescription
            metainfoLoop rest latestDescription'
              (releases ++ format_release_entry version date description ++ "\n")

/-! ### `string.Template.safe_substitute`

`build_metainfo` substitutes the two placeholders `DESCRIPTION` and
`RELEASES` with `Template.safe_substitute`: `$$` becomes `$`, `$name` and
`$\x7bname\x7d` are replaced when the name is one of the two keys and left
literal otherwise, a `$` followed by anything else is left literal, and
identifiers are `[_A-Za-z][_A-Za-z0-9]*`. -/

/-- First character of a Template identifier. -/
def isIdStart (c : Char) : Bool := c.isAlpha || c = '_'

/-- Subsequent character of a Template identifier. -/
def isIdChar (c : Char) : Bool := c.isAlphanum || c = '_'

/-- One-pass scan of `safe_substitute` over the template text, with a
fuel argument for structural recursion; every step consumes at least one
character, so fuel equal to the text length (as supplied by
`safe_substitute`) never runs out. -/
def substChars (mapping : String → Option String) : Nat → List Char → List Char
  | 0, cs => cs
  | _ + 1, [] => []
  | fuel + 1, '$' :: '$' :: r => '$' :: substChars mapping fuel r
  | fuel + 1, '$' :: '{' :: c :: r' =>
    if isIdStart c then
      let name : List Char := c :: r'.takeWhile isIdChar
      match r'.dropWhile isIdChar with
      | '}' :: tail =>
        (match mapping (String.mk name) with
         | some v => v.data ++ substChars mapping fuel tail
         | none => '$' :: '{' :: (name ++ ('}' :: substChars mapping fuel tail)))
      | _ => '$' :: substChars mapping fuel ('{' :: c :: r')
    else '$' :: substChars mapping fuel ('{' :: c :: r')
  | _ + 1, '$' :: '{' :: [] => '$' :: '{' :: []
  | fuel + 1, '$' :: c :: r' =>
    if isIdStart c then
      let name : List Char := c :: r'.takeWhile isIdChar
      (match mapping (String.mk name) with
       | some v => v.data ++ substChars mapping fuel (r'.dropWhile isIdChar)
       | none => '$' :: (name ++ substChars mapping fuel (r'.dropWhile isIdChar)))
    else '$' :: substChars mapping fuel (c :: r')
  | _ + 1, ['$'] => ['$']
  | fuel + 1, c :: rest => c :: substChars mapping fuel rest

/-- `template.safe_substitute(DESCRIPTION=d, RELEASES=r)`. -/
def safe_substitute (tpl d r : String) : String :=
  String.mk (substChars
    (fun n => if n = "DESCRIPTION" then some d
              else if n = "RELEASES" then some r else none)
    tpl.data.length tpl.data)

/-- The pure core of `build_metainfo`: given the catalog's `downloads`
list and the template text, produce the document written to the output
path (`.error` when the loop raises). -/
def build_metainfo (downloads : List Download) (tpl : String) :
    Except String String :=
  match metainfoLoop downloads "" "" with
  | .error e => .error e
  | .ok (latestDescription, releases) =>
    .ok (safe_substitute tpl latestDescription releases)

/-! ## download.py: `get_latest_version_information` field mapping -/

/-- The `parsed_response["linux"]` object of the latest-version endpoint,
with the fields the code reads. -/
structure LatestLinuxInfo where
  major : Int
  minor : Int
  releaseNum : Int
  build : Int
  beta : Option Int
  releaseId : String
  downloadId : String
deriving DecidableEq, Repr

/-- The `Version` constructed by `get_latest_version_information`:
`build` comes from the response's `build` field and `beta` from
`linux_info.get("beta", -1)`. -/
def versionFromLatest (li : LatestLinuxInfo) : Version :=
  { major := li.major
    minor := li.minor
    patch := li.releaseNum
    build := li.build
    beta := li.beta.getD (-1) }

/-- The full return value of `get_latest_version_information`. -/
def get_latest_version_information (li : LatestLinuxInfo) :
    Version × String × String :=
  (versionFromLatest li, li.releaseId, li.downloadId)

/-! ## setup.py: `remove_conflicting_libraries` and the libs copy (C1)

The libs directories are modelled by the list of their file names.
`libs_path.glob("libglib*")` matches exactly the names beginning with the
pattern stem, and `shutil.copytree(src, dst, dirs_exist_ok=True)`
overwrites same-named files and keeps the destination's other files. -/

/-- The glob patterns of `remove_conflicting_libraries`. -/
def conflictPatterns : List String :=
  ["libglib*", "libgio*", "libgmodule*", "libgobject*"]

/-- A trailing-star glob: the name matches when it starts with the stem
(the pattern minus its final `*`). -/
def globMatches (pat name : String) : Bool :=
  pat.data.dropLast.isPrefixOf name.data

/-- Whether a file name matches any of the four conflicting patterns. -/
def isConflicting (name : String) : Bool :=
  conflictPatterns.any (fun pat => globMatches pat name)

/-- Embedding of `remove_conflicting_libraries`: for each pattern in
order, unlink every matching file of the directory. -/
def remove_conflicting_libraries (libs : List String) : List String :=
  conflictPatterns.foldl
    (fun acc pat => acc.filter (fun name => !globMatches pat name)) libs

/-- Name-level effect of `copy_tree src dst` with `dirs_exist_ok=True`:
the destination ends up with every source name plus its own names that
the copy did not overwrite. -/
def copyTreeNames (src dst : List String) : List String :=
  src ++ dst.filter (fun name => !src.contains name)

/-- The libs step of `setup_resolve` (lines 351-355): remove the
conflicting libraries from the *extracted source* libs directory, then
copy it over the target libs directory.  Returns (source after removal,
target after copy). -/
def libsStep (srcLibs tgtLibs : List String) : List String × List String :=
  let src' := remove_conflicting_libraries srcLibs
  (src', copyTreeNames src' tgtLibs)

/-! ## setup.py: `fix_permissions` (C3)

The extracted tree is a rose tree of directories (with a permission mode
and a list of file modes).  `os.walk(path)` yields every directory of the
tree with its immediate subdirectory and file names; the loop chmods
`os.path.join(root, d)` and `os.path.join(root, f)`, i.e. every file in
the tree and every directory *except the walk root itself*. -/

mutual
/-- A directory: its mode, its files' modes, and its subdirectories. -/
inductive FsTree : Type where
  | mk (mode : Nat) (fileModes : List Nat) (subdirs : FsForest)
/-- A list of subdirectories. -/
inductive FsForest : Type where
  | nil : FsForest
  | cons : FsTree → FsForest → FsForest
end

mutual
/-- Effect of the walk on a directory reached as somebody's subdirectory:
its own mode is OR-ed with `0o555 | 0o200`, its files with
`0o444 | 0o200`, and its subdirectories recursively. -/
def fixChild : FsTree → FsTree
  | .mk m fileModes subs =>
    .mk (m ||| 0o555 ||| 0o200)
      (fileModes.map (fun fm => fm ||| 0o444 ||| 0o200))
      (fixForest subs)
/-- The walk's effect on a list of subdirectories. -/
def fixForest : FsForest → FsForest
  | .nil => .nil
  | .cons t ts => .cons (fixChild t) (fixForest ts)
end

/-- Embedding of `fix_permissions(path)`: every file mode is OR-ed with
`0o444 | 0o200` and every non-root directory mode with `0o555 | 0o200`;
the mode of `path` itself is never touched (`os.walk` never chmods its
own argument). -/
def fix_permissions : FsTree → FsTree
  | .mk m fileModes subs =>
    .mk m (fileModes.map (fun fm => fm ||| 0o444 ||| 0o200)) (fixForest subs)

/-- Mode of the tree's root directory. -/
def rootMode : FsTree → Nat
  | .mk m _ _ => m

mutual
/-- All file modes of the tree, in traversal order. -/
def fileModesT : FsTree → List Nat
  | .mk _ fileModes subs => fileModes ++ fileModesF subs
/-- All file modes of a forest. -/
def fileModesF : FsForest → List Nat
  | .nil => []
  | .cons t ts => fileModesT t ++ fileModesF ts
end

mutual
/-- All directory modes of the tree (root first), in traversal order. -/
def dirModesT : FsTree → List Nat
  | .mk m _ subs => m :: dirModesF subs
/-- All directory modes of a forest. -/
def dirModesF : FsForest → List Nat
  | .nil => []
  | .cons t ts => dirModesT t ++ dirModesF ts
end

/-- All directory modes strictly below the root. -/
def dirModesBelow : FsTree → List Nat
  | .mk _ _ subs => dirModesF subs

/-- All modes of the tree: directories (root included) then files. -/
def allModes (t : FsTree) : List Nat := dirModesT t ++ fileModesT t

/-! ## constants.py: `BuildConfig` -/

/-- `APP_ID_STABLE` from `constants.py`. -/
def APP_ID_STABLE : String := "com.blackmagic.Resolve"

/-- `APP_ID_BETA` from `constants.py`. -/
def APP_ID_BETA : String := "com.blackmagic.Resolve.Beta"

/-- Embedding of the `BuildConfig` dataclass. -/
structure BuildConfig where
  isBeta : Bool
deriving DecidableEq, Repr

/-- `BuildConfig.app_id`. -/
def BuildConfig.appId (c : BuildConfig) : String :=
  if c.isBeta then APP_ID_BETA else APP_ID_STABLE

/-- `BuildConfig.template_prefix`. -/
def BuildConfig.templatePrefixStr (c : BuildConfig) : String :=
  if c.isBeta then APP_ID_BETA else APP_ID_STABLE

/-- `BuildConfig.get_desktop_template(suffix)`. -/
def BuildConfig.getDesktopTemplate (c : BuildConfig) (suffix : String) : String :=
  c.templatePrefixStr ++ "." ++ suffix ++ ".desktop"

/-! ## setup.py: optional sub-application installs (C2)

For these steps only path existence matters, so the filesystem state is
the list of paths that exist.  `copy_tree` and `copy_file` skip when the
source is absent; `install_desktop_file` copies unconditionally and so
fails when the template is absent, modelled with `Except`. -/

/-- A path-set filesystem state. -/
abbrev PathFS := List String

/-- `shutil.copy2`: fails when the source path does not exist. -/
def copy2 (src dst : String) (fs : PathFS) : Except String PathFS :=
  if src ∈ fs then .ok (dst :: fs)
  else .error ("FileNotFoundError: " ++ src)

/-- `copy_file` (`setup.py`): copy a single file only if the source
exists. -/
def copy_file (src dst : String) (fs : PathFS) : PathFS :=
  if src ∈ fs then dst :: fs else fs

/-- Path-level effect of `copy_tree` (`setup.py`): if the source exists,
every path under it is mirrored below the destination. -/
def copy_tree (src dst : String) (fs : PathFS) : PathFS :=
  if src ∈ fs then
    fs.filterMap (fun p =>
      if src.isPrefixOf p then some (dst ++ p.drop src.length) else none) ++ fs
  else fs

/-- `install_desktop_file(template_name, output_name)`: an unconditional
`shutil.copy2` from `desktop/<template>` into the applications dir. -/
def install_desktop_file (templateName outputName : String) (fs : PathFS) :
    Except String PathFS :=
  copy2 ("desktop/" ++ templateName)
    ("/app/share/applications/" ++ outputName) fs

/-- Marker path checked by `install_raw_player`. -/
def rawPlayerMarker : String := "squashfs-root/BlackmagicRAWPlayer"

/-- Embedding of `install_raw_player`. -/
def install_raw_player (c : BuildConfig) (fs : PathFS) : Except String PathFS :=
  if rawPlayerMarker ∈ fs then
    let fs1 := copy_tree rawPlayerMarker "/app/BlackmagicRAWPlayer" fs
    match install_desktop_file (c.getDesktopTemplate "RAWPlayer")
        (c.appId ++ ".RAWPlayer.desktop") fs1 with
    | .error e => .error e
    | .ok fs2 =>
      .ok (copy_file "squashfs-root/graphics/blackmagicraw-player_256x256_apps.png"
        ("/app/share/icons/hicolor/256x256/apps/" ++ c.appId ++ ".RAWPlayer.png") fs2)
  else .ok fs

/-- Marker path checked by `install_raw_speed_test`. -/
def rawSpeedTestMarker : String := "squashfs-root/BlackmagicRAWSpeedTest"

/-- Embedding of `install_raw_speed_test`. -/
def install_raw_speed_test (c : BuildConfig) (fs : PathFS) : Except String PathFS :=
  if rawSpeedTestMarker ∈ fs then
    let fs1 := copy_tree rawSpeedTestMarker "/app/BlackmagicRAWSpeedTest" fs
    match install_desktop_file (c.getDesktopTemplate "RAWSpeedTest")
        (c.appId ++ ".RAWSpeedTest.desktop") fs1 with
    | .error e => .error e
    | .ok fs2 =>
      .ok (copy_file "squashfs-root/graphics/blackmagicraw-speedtest_256x256_apps.png"
        ("/app/share/icons/hicolor/256x256/apps/" ++ c.appId ++ ".RAWSpeedTest.png") fs2)
  else .ok fs

/-- Marker path checked by `install_panel_setup` (under the prefix, where
`setup_resolve` has copied the vendor subtree when it shipped). -/
def panelSetupMarker : String :=
  "/app/DaVinci Control Panels Setup/DaVinci Control Panels Setup"

/-- Embedding of `install_panel_setup`. -/
def install_panel_setup (c : BuildConfig) (fs : PathFS) : Except String PathFS :=
  if panelSetupMarker ∈ fs then
    match install_desktop_file (c.getDesktopTemplate "PanelSetup")
        (c.appId ++ ".PanelSetup.desktop") fs with
    | .error e => .error e
    | .ok fs2 =>
      .ok (copy_file "squashfs-root/graphics/DV_Panels.png"
        ("/app/share/icons/hicolor/128x128/apps/" ++ c.appId ++ ".PanelSetup.png") fs2)
  else .ok fs

/-- Marker path checked by `install_remote_monitoring`. -/
def remoteMonitoringMarker : String := "/app/bin/DaVinci Remote Monitoring"

/-- Embedding of `install_remote_monitoring`. -/
def install_remote_monitoring (c : BuildConfig) (fs : PathFS) :
    Except String PathFS :=
  if remoteMonitoringMarker ∈ fs then
    match install_desktop_file (c.getDesktopTemplate "RemoteMonitoring")
        (c.appId ++ ".RemoteMonitoring.desktop") fs with
    | .error e => .error e
    | .ok fs2 =>
      .ok (copy_file "squashfs-root/graphics/Remote_Monitoring.png"
        ("/app/share/icons/hicolor/128x128/apps/" ++ c.appId
          ++ ".RemoteMonitoring.png") fs2)
  else .ok fs

/-! ## setup.py: `setup_blackmagic_raw_api` (C4)

This step needs symlinks, so the filesystem is an association list from
component paths to entries (file, directory, or symlink with a stored
relative target).  `Path.exists()` follows symlinks (a dangling link
reports `False`), while `Path.symlink_to` fails with `FileExistsError`
whenever any entry — a dangling link included — occupies the path. -/

/-- A filesystem entry: regular file, directory, or symlink storing its
(possibly relative) target. -/
inductive FsEntry : Type where
  | file : FsEntry
  | dir : FsEntry
  | link (target : List String) : FsEntry
deriving DecidableEq, Repr

/-- An association-list filesystem over component paths. -/
abbrev LinkFS := List (List String × FsEntry)

/-- Entry at a path, most recent insertion first. -/
def fsLookup (fs : LinkFS) (p : List String) : Option FsEntry :=
  match fs with
  | [] => none
  | (q, e) :: rest => if q = p then some e else fsLookup rest p

/-- Insert an entry at a path. -/
def fsInsert (p : List String) (e : FsEntry) (fs : LinkFS) : LinkFS :=
  (p, e) :: fs

/-- Resolve a relative target against a base directory, folding `..` and
`.` components as the OS does. -/
def normJoin (base : List String) (rel : List String) : List String :=
  rel.foldl
    (fun acc comp =>
      if comp = ".." then acc.dropLast
      else if comp = "." then acc
      else acc ++ [comp]) base

/-- `Path.exists()`: follow symlinks (with an `ELOOP`-style fuel bound, as
`os.stat` reports an error — hence `False` — on a symlink loop). -/
def entryExists (fs : LinkFS) : Nat → List String → Bool
  | 0, _ => false
  | fuel + 1, p =>
    match fsLookup fs p with
    | none => false
    | some .file => true
    | some .dir => true
    | some (.link t) => entryExists fs fuel (normJoin p.dropLast t)

/-- `Path.mkdir(parents=True, exist_ok=True)` for a fixed ancestor chain:
an existing directory is kept, a missing one created, any other entry in
the way raises. -/
def mkdirParents (fs : LinkFS) : List (List String) → Except String LinkFS
  | [] => .ok fs
  | p :: rest =>
    match fsLookup fs p with
    | some .dir => mkdirParents fs rest
    | none => mkdirParents (fsInsert p .dir fs) rest
    | some _ => .error "FileExistsError: mkdir"

/-- `Path.symlink_to(target)`: raises `FileExistsError` when any entry
occupies the path. -/
def symlinkTo (fs : LinkFS) (p : List String) (t : List String) :
    Except String LinkFS :=
  match fsLookup fs p with
  | none => .ok (fsInsert p (.link t) fs)
  | some _ => .error "FileExistsError: symlink"

/-- First link path: `/app/bin/libBlackmagicRawAPI.so`. -/
def symlink1Path : List String := ["app", "bin", "libBlackmagicRawAPI.so"]

/-- Second link path: `/app/bin/BlackmagicRawAPI/libBlackmagicRawAPI.so`. -/
def symlink2Path : List String :=
  ["app", "bin", "BlackmagicRawAPI", "libBlackmagicRawAPI.so"]

/-- Relative target of the first link. -/
def libSourceRel : List String := ["..", "libs", "libBlackmagicRawAPI.so"]

/-- Relative target of the second link. -/
def libSourceNestedRel : List String :=
  ["..", "..", "libs", "libBlackmagicRawAPI.so"]

/-- The API library file both targets resolve to. -/
def rawApiLibPath : List String := ["app", "libs", "libBlackmagicRawAPI.so"]

/-- The ancestor chain created by
`raw_api_dir.mkdir(parents=True, exist_ok=True)`. -/
def rawApiDirs : List (List String) :=
  [["app"], ["app", "bin"], ["app", "bin", "BlackmagicRawAPI"]]

/-- Embedding of `setup_blackmagic_raw_api`: create
`/app/bin/BlackmagicRawAPI` (with parents), then create each of the two
relative symlinks unless `Path.exists()` reports the link path present. -/
def setup_blackmagic_raw_api (fs : LinkFS) : Except String LinkFS :=
  match mkdirParents fs rawApiDirs with
  | .error e => .error e
  | .ok fs1 =>
    match (if entryExists fs1 40 symlink1Path then .ok fs1
           else symlinkTo fs1 symlink1Path libSourceRel) with
    | .error e => .error e
    | .ok fs2 =>
      match (if entryExists fs2 40 symlink2Path then .ok fs2
             else symlinkTo fs2 symlink2Path libSourceNestedRel) with
      | .error e => .error e
      | .ok fs3 => .ok fs3

/-! ## Date round-trip lemmas -/

/-- `String.append` acts as append on the underlying character lists. -/
theorem str_data_append (a b : String) : (a ++ b).data = a.data ++ b.data :=
  rfl

/-- `daysInMonth` never exceeds 31. -/
theorem daysInMonth_le_31 (m y : Nat) : daysInMonth m y ≤ 31 := by
  unfold daysInMonth
  split_ifs <;> omega

/-- Decimal digit characters are digits. -/
theorem digitChar_isDigit : ∀ n < 10, (Nat.digitChar n).isDigit = true := by
  decide

/-- Value of a decimal digit character. -/
theorem digitChar_val : ∀ n < 10, (Nat.digitChar n).toNat - 48 = n := by
  decide

/-- Decimal digit characters are not whitespace. -/
theorem digitChar_not_ws : ∀ n < 10, (Nat.digitChar n).isWhitespace = false := by
  decide

/-- The character list of a four-digit padded year. -/
theorem pad4_data (y : Nat) (hy : y < 10000) :
    (pad4 y).data = [Nat.digitChar (y / 1000), Nat.digitChar (y / 100 % 10),
      Nat.digitChar (y / 10 % 10), Nat.digitChar (y % 10)] := by
  unfold pad4
  rw [if_pos hy]

/-- `%d` parses a two-digit zero-padded day back to its value. -/
theorem parseDay_pad2 (d : Nat) (h1 : 1 ≤ d) (h2 : d ≤ 31) (rest : List Char) :
    parseDay ((pad2 d).data ++ rest) = some (d, rest) := by
  interval_cases d <;> rfl

/-- `%b` parses a capitalised month abbreviation back to its number. -/
theorem parseMon_abbr (m : Nat) (h1 : 1 ≤ m) (h2 : m ≤ 12) (rest : List Char) :
    parseMon ((monthNames.getD (m - 1) "").data ++ rest) = some (m, rest) := by
  interval_cases m <;> rfl

/-- A single space is consumed before a non-whitespace character. -/
theorem skipWs_cons_nonws (c : Char) (rest : List Char)
    (hc : c.isWhitespace = false) :
    skipWs (' ' :: c :: rest) = some (c :: rest) := by
  show (if (' '.isWhitespace) then some ((c :: rest).dropWhile Char.isWhitespace)
        else none) = some (c :: rest)
  rw [if_pos (by decide), List.dropWhile_cons_of_neg (by simp [hc])]

/-- The space before the month abbreviation is consumed. -/
theorem skipWs_before_month (m : Nat) (h1 : 1 ≤ m) (h2 : m ≤ 12)
    (rest : List Char) :
    skipWs (' ' :: ((monthNames.getD (m - 1) "").data ++ rest))
      = some ((monthNames.getD (m - 1) "").data ++ rest) := by
  interval_cases m <;> rfl

/-- The space before the four-digit year is consumed. -/
theorem skipWs_before_year (y : Nat) (hy : y < 10000) :
    skipWs (' ' :: (pad4 y).data) = some ((pad4 y).data) := by
  rw [pad4_data y hy]
  exact skipWs_cons_nonws _ _ (digitChar_not_ws (y / 1000) (by omega))

/-- `%Y` parses a four-digit padded year back to its value. -/
theorem parseYear4_pad4 (y : Nat) (hy : y < 10000) :
    parseYear4 ((pad4 y).data) = some (y, []) := by
  rw [pad4_data y hy]
  show (if ((Nat.digitChar (y / 1000)).isDigit
          && (Nat.digitChar (y / 100 % 10)).isDigit
          && (Nat.digitChar (y / 10 % 10)).isDigit
          && (Nat.digitChar (y % 10)).isDigit) then
      some (1000 * ((Nat.digitChar (y / 1000)).toNat - 48)
          + 100 * ((Nat.digitChar (y / 100 % 10)).toNat - 48)
          + 10 * ((Nat.digitChar (y / 10 % 10)).toNat - 48)
          + ((Nat.digitChar (y % 10)).toNat - 48), ([] : List Char))
    else none) = some (y, [])
  rw [digitChar_isDigit (y / 1000) (by omega),
    digitChar_isDigit (y / 100 % 10) (by omega),
    digitChar_isDigit (y / 10 % 10) (by omega),
    digitChar_isDigit (y % 10) (by omega),
    digitChar_val (y / 1000) (by omega),
    digitChar_val (y / 100 % 10) (by omega),
    digitChar_val (y / 10 % 10) (by omega),
    digitChar_val (y % 10) (by omega)]
  have hval : 1000 * (y / 1000) + 100 * (y / 100 % 10) + 10 * (y / 10 % 10)
      + y % 10 = y := by omega
  rw [hval]
  rfl

/-- The character list of a rendered "DD Mon YYYY" date string. -/
theorem renderDMY_data (d m y : Nat) :
    (renderDMY d m y).data =
      (pad2 d).data ++ (' ' :: ((monthNames.getD (m - 1) "").data
        ++ (' ' :: (pad4 y).data))) := by
  show ((pad2 d ++ " " ++ monthNames.getD (m - 1) "" ++ " " ++ pad4 y)).data = _
  rw [str_data_append, str_data_append, str_data_append, str_data_append]
  simp

/-- `strptime("%d %b %Y")` recovers the components of any valid rendered
"DD Mon YYYY" date string. -/
theorem strptimeDMY_render (y m d : Nat) (hy1 : 1 ≤ y) (hy2 : y ≤ 9999)
    (hm1 : 1 ≤ m) (hm2 : m ≤ 12) (hd1 : 1 ≤ d) (hdm : d ≤ daysInMonth m y) :
    strptimeDMY (renderDMY d m y).data = some (y, m, d) := by
  have h31 : d ≤ 31 := le_trans hdm (daysInMonth_le_31 m y)
  have hy : y < 10000 := by omega
  rw [renderDMY_data]
  unfold strptimeDMY
  rw [parseDay_pad2 d hd1 h31]
  dsimp only [Option.some_bind]
  rw [skipWs_before_month m hm1 hm2]
  dsimp only [Option.some_bind]
  rw [parseMon_abbr m hm1 hm2]
  dsimp only [Option.some_bind]
  rw [skipWs_before_year y hy]
  dsimp only [Option.some_bind]
  rw [parseYear4_pad4 y hy]
  dsimp only [Option.some_bind]
  rw [if_pos (by simp [hy1, hdm])]

/-! ## Loop lemmas for `build_metainfo` -/

/-- Whether a catalog entry survives the loop's filtering: it has a
non-empty Linux download list whose first element carries the configured
product tag, and its date string parses. -/
def survivesFilter (d : Download) : Bool :=
  match d.urlsLinux with
  | some (linux :: _) =>
    linux.product = some APP_TAG && (parseDateIso d.date).isSome
  | _ => false

/-- Descriptions of the surviving entries, in catalog order. -/
def survivingDescs (ds : List Download) : List String :=
  (ds.filter (fun d => survivesFilter d)).map (fun d => d.desc)

/-- First non-empty string of a list (Python truthiness on strings). -/
def firstNonEmpty : List String → String
  | [] => ""
  | s :: rest => if s = "" then firstNonEmpty rest else s

/-- A non-surviving entry with a well-formed (non-empty when present)
Linux list is skipped by the loop. -/
theorem metainfoLoop_skip (d : Download) (rest : List Download)
    (ld rel : String) (hurls : d.urlsLinux ≠ some [])
    (hskip : survivesFilter d = false) :
    metainfoLoop (d :: rest) ld rel = metainfoLoop rest ld rel := by
  obtain ⟨urls, desc, date⟩ := d
  cases urls with
  | none => rfl
  | some l =>
    cases l with
    | nil => exact absurd rfl hurls
    | cons linux tail =>
      by_cases hp : linux.product = some APP_TAG
      · have hdate : parseDateIso date = none := by
          simp only [survivesFilter, hp] at hskip
          simpa using hskip
        conv_lhs => unfold metainfoLoop
        dsimp only
        rw [if_neg (by simp [hp]), hdate]
      · conv_lhs => unfold metainfoLoop
        dsimp only
        rw [if_pos hp]

/-- A surviving entry updates the accumulators as the loop body does. -/
theorem metainfoLoop_cons_survive (linux : LinuxDownload)
    (tail : List LinuxDownload) (desc date : String) (rest : List Download)
    (ld rel : String) (hp : linux.product = some APP_TAG) (dstr : String)
    (hdate : parseDateIso date = some dstr) :
    metainfoLoop (⟨some (linux :: tail), desc, date⟩ :: rest) ld rel
      = metainfoLoop rest (if ld = "" then desc else ld)
          (rel ++ format_release_entry (parse_version_from_download linux)
            dstr desc ++ "\n") := by
  conv_lhs => unfold metainfoLoop
  dsimp only
  rw [if_neg (by simp [hp]), hdate]

/-- If every entry is skipped, the loop returns its accumulators. -/
theorem metainfoLoop_all_skip : ∀ (ds : List Download) (ld rel : String),
    (∀ d ∈ ds, d.urlsLinux ≠ some [] ∧ survivesFilter d = false) →
    metainfoLoop ds ld rel = .ok (ld, rel) := by
  intro ds
  induction ds with
  | nil => intro ld rel _; rfl
  | cons d rest ih =>
    intro ld rel h
    rw [metainfoLoop_skip d rest ld rel (h d (List.mem_cons_self d rest)).1
      (h d (List.mem_cons_self d rest)).2]
    exact ih ld rel (fun q hq => h q (List.mem_cons_of_mem d hq))

/-- The description accumulated by the loop is the first non-empty
description among the surviving entries (when started empty). -/
theorem metainfoLoop_desc : ∀ (ds : List Download) (ld rel : String),
    (∀ d ∈ ds, d.urlsLinux ≠ some []) →
    ∃ p, metainfoLoop ds ld rel = .ok p
      ∧ p.1 = (if ld = "" then firstNonEmpty (survivingDescs ds) else ld) := by
  intro ds
  induction ds with
  | nil =>
    intro ld rel _
    refine ⟨(ld, rel), rfl, ?_⟩
    by_cases hld : ld = "" <;> simp [hld, survivingDescs, firstNonEmpty]
  | cons d rest ih =>
    intro ld rel h
    have hsafe : d.urlsLinux ≠ some [] := h d (List.mem_cons_self d rest)
    have hrest : ∀ q ∈ rest, q.urlsLinux ≠ some [] :=
      fun q hq => h q (List.mem_cons_of_mem d hq)
    by_cases hs : survivesFilter d = true
    · obtain ⟨urls, desc, date⟩ := d
      match urls with
      | none => exact absurd hs (by simp [survivesFilter])
      | some [] => exact absurd rfl hsafe
      | some (linux :: tail) =>
        have hp : linux.product = some APP_TAG := by
          simp only [survivesFilter, Bool.and_eq_true] at hs
          simpa using hs.1
        have hdsome : (parseDateIso date).isSome = true := by
          simp only [survivesFilter, Bool.and_eq_true] at hs
          simpa using hs.2
        obtain ⟨dstr, hdate⟩ := Option.isSome_iff_exists.mp hdsome
        rw [metainfoLoop_cons_survive linux tail desc date rest ld rel hp
          dstr hdate]
        obtain ⟨p, hloop, hdesc⟩ := ih (if ld = "" then desc else ld)
          (rel ++ format_release_entry (parse_version_from_download linux)
            dstr desc ++ "\n") hrest
        refine ⟨p, hloop, ?_⟩
        rw [hdesc]
        have hsd : survivingDescs
            (Download.mk (some (linux :: tail)) desc date :: rest)
            = desc :: survivingDescs rest := by
          simp only [survivingDescs, List.filter_cons]
          rw [if_pos hs]
          rfl
        rw [hsd]
        by_cases hld : ld = ""
        · simp [hld, firstNonEmpty]
        · simp [hld]
    · rw [metainfoLoop_skip d rest ld rel hsafe (by simpa using hs)]
      obtain ⟨p, hloop, hdesc⟩ := ih ld rel hrest
      refine ⟨p, hloop, ?_⟩
      rw [hdesc]
      have hsd : survivingDescs (d :: rest) = survivingDescs rest := by
        simp only [survivingDescs, List.filter_cons]
        rw [if_neg (by simpa using hs)]
      rw [hsd]

/-! # Claims -/

/-- C5: for every `Version`, if `beta = -1` the string form is
`"{major}.{minor}.{patch}"` with no beta or build component, and if
`beta ≥ 0` it is `"{major}.{minor}.{patch}.{beta}+{build}"`, joining beta
and build with `+`. -/
theorem C5_version_string_form (v : Version) :
    (v.beta = -1 →
      v.toStr = toString v.major ++ "." ++ toString v.minor ++ "."
        ++ toString v.patch) ∧
    (0 ≤ v.beta →
      v.toStr = toString v.major ++ "." ++ toString v.minor ++ "."
        ++ toString v.patch ++ "." ++ toString v.beta ++ "+"
        ++ toString v.build) := by
  constructor
  · intro h
    simp [Version.toStr, h]
  · intro h
    have hne : ¬ v.beta = -1 := by omega
    simp [Version.toStr, hne]

/-- Witness for C5 at the stable version 19.1.4 (build 102) and the beta
version 20.0.0 beta 3 (build 55). -/
theorem C5_version_string_form_witness :
    ((Version.mk 19 1 4 (-1) 102).beta = -1
      ∧ (Version.mk 19 1 4 (-1) 102).toStr = "19.1.4")
    ∧ (0 ≤ (Version.mk 20 0 0 3 55).beta
      ∧ (Version.mk 20 0 0 3 55).toStr = "20.0.0.3+55") := by
  refine ⟨⟨rfl, ?_⟩, ⟨by decide, ?_⟩⟩
  · have h := (C5_version_string_form (Version.mk 19 1 4 (-1) 102)).1 rfl
    rw [h]
    decide
  · have h := (C5_version_string_form (Version.mk 20 0 0 3 55)).2 (by decide)
    rw [h]
    decide

/-- C10: `parse_version_from_download` maps `major→major`, `minor→minor`,
`releaseNum→patch` and `releaseId→build` (so its `build` never depends on
the entry's own `build` field), while `get_latest_version_information`
maps the response's `build` field to `build` (and `releaseNum→patch`),
returning `releaseId` separately. -/
theorem C10_build_field_mapping (ld : LinuxDownload) (li : LatestLinuxInfo) :
    (parse_version_from_download ld).major = ld.major ∧
    (parse_version_from_download ld).minor = ld.minor ∧
    (parse_version_from_download ld).patch = ld.releaseNum ∧
    (parse_version_from_download ld).build = ld.releaseId ∧
    (versionFromLatest li).major = li.major ∧
    (versionFromLatest li).minor = li.minor ∧
    (versionFromLatest li).patch = li.releaseNum ∧
    (versionFromLatest li).build = li.build ∧
    (get_latest_version_information li).2.1 = li.releaseId :=
  ⟨rfl, rfl, rfl, rfl, rfl, rfl, rfl, rfl, rfl⟩

/-- C6 counterexample: the title `"Re\nBeta 3"` contains the substring
`"Beta 3"`, yet the parsed beta index is `-1`, because the `.*` of
`re.match(r".*Beta (\d+)", title)` does not match the newline before the
occurrence — refuting the claim that any title containing a "Beta N"
substring yields beta index N. -/
theorem C6_counterexample :
    ("Beta 3".data <:+: "Re\nBeta 3".data)
      ∧ parseBeta "Re\nBeta 3".data = -1
      ∧ (-1 : Int) ≠ 3 := by
  refine ⟨?_, rfl, by decide⟩
  decide

/-- Past the end of the title there is no `"Beta "`+digits occurrence. -/
theorem betaAt_drop_none_of_ge (cs : List Char) (j : Nat)
    (h : cs.length ≤ j) : betaAt (cs.drop j) = none := by
  rw [List.drop_eq_nil_of_le h]
  rfl

/-- If every position of the title either starts no `"Beta "`+digits
occurrence or has a newline in its preceding prefix, the greedy scan
finds nothing. -/
theorem scanBeta_none_of : ∀ cs : List Char,
    (∀ k, betaAt (cs.drop k) = none ∨ '\n' ∈ cs.take k) →
    scanBeta cs = none := by
  intro cs
  induction cs with
  | nil => intro _; rfl
  | cons c rest ih =>
    intro h
    by_cases hc : c = '\n'
    · show (if c = '\n' then none else _) = _
      rw [if_pos hc]
    · have hb : betaAt (c :: rest) = none := by
        rcases h 0 with h0 | h0
        · simpa using h0
        · simp at h0
      have hr : scanBeta rest = none := by
        apply ih
        intro k
        rcases h (k + 1) with hk | hk
        · left
          simpa using hk
        · right
          rw [List.take_succ_cons] at hk
          rcases List.mem_cons.mp hk with hceq | hmem
          · exact absurd hceq.symm hc
          · exact hmem
      show (if c = '\n' then none else
            match scanBeta rest with
            | some n => some n
            | none => betaAt (c :: rest)) = none
      rw [if_neg hc, hr]
      exact hb

/-- If position `k` starts a `"Beta "`+digits occurrence, its preceding
prefix is newline-free, and no later position does both, the greedy scan
returns the digit-run value at `k`. -/
theorem scanBeta_last : ∀ (cs : List Char) (k n : Nat),
    '\n' ∉ cs.take k → betaAt (cs.drop k) = some n →
    (∀ j, k < j → betaAt (cs.drop j) = none ∨ '\n' ∈ cs.take j) →
    scanBeta cs = some n := by
  intro cs
  induction cs with
  | nil =>
    intro k n _ hat _
    rw [List.drop_nil] at hat
    exact Option.noConfusion hat
  | cons c rest ih =>
    intro k n hnl hat hlast
    by_cases hc : c = '\n'
    · subst hc
      cases k with
      | zero =>
        rw [List.drop_zero,
          show betaAt ('\n' :: rest) = none from rfl] at hat
        exact Option.noConfusion hat
      | succ k' => exact absurd (by simp) hnl
    · have step : scanBeta (c :: rest) =
          match scanBeta rest with
          | some n => some n
          | none => betaAt (c :: rest) := by
        show (if c = '\n' then none else _) = _
        rw [if_neg hc]
      cases k with
      | zero =>
        rw [List.drop_zero] at hat
        have hrest : scanBeta rest = none := by
          apply scanBeta_none_of
          intro j
          rcases hlast (j + 1) (Nat.succ_pos j) with hj | hj
          · left
            simpa using hj
          · right
            rw [List.take_succ_cons] at hj
            rcases List.mem_cons.mp hj with hceq | hmem
            · exact absurd hceq.symm hc
            · exact hmem
        rw [step, hrest]
        exact hat
      | succ k' =>
        rw [List.take_succ_cons] at hnl
        rw [List.drop_succ_cons] at hat
        have hnl' : '\n' ∉ rest.take k' :=
          fun hm => hnl (List.mem_cons_of_mem _ hm)
        have hlast' : ∀ j, k' < j →
            betaAt (rest.drop j) = none ∨ '\n' ∈ rest.take j := by
          intro j hj
          rcases hlast (j + 1) (Nat.succ_lt_succ hj) with hj' | hj'
          · left
            simpa using hj'
          · right
            rw [List.take_succ_cons] at hj'
            rcases List.mem_cons.mp hj' with hceq | hmem
            · exact absurd hceq.symm hc
            · exact hmem
        rw [step, ih k' n hnl' hat hlast']

/-- C6 amended: for every title, the beta regular expression yields the
digit-run value at the last `"Beta "`+digits occurrence whose preceding
prefix contains no newline — in particular `"Resolve Beta 3"` yields 3 —
and yields `-1` when no position of the title both starts a
`"Beta "`+digits occurrence and has a newline-free preceding prefix: so
a title with no "Beta N" substring at all, and also a title whose only
occurrences lie after a newline, yield `-1` (position conditions are
stated up to the title's length; beyond it no occurrence starts). -/
theorem C6_beta_regex_amended :
    parseBeta "Resolve Beta 3".data = 3
      ∧ (∀ (cs : List Char) (k n : Nat), '\n' ∉ cs.take k →
          betaAt (cs.drop k) = some n →
          (∀ j, j ≤ cs.length → k < j →
            betaAt (cs.drop j) = none ∨ '\n' ∈ cs.take j) →
          parseBeta cs = (n : Int))
      ∧ (∀ cs : List Char,
          (∀ k, k ≤ cs.length →
            betaAt (cs.drop k) = none ∨ '\n' ∈ cs.take k) →
          parseBeta cs = -1) := by
  refine ⟨rfl, ?_, ?_⟩
  · intro cs k n hnl hat hlast
    have hlast' : ∀ j, k < j →
        betaAt (cs.drop j) = none ∨ '\n' ∈ cs.take j := by
      intro j hj
      rcases le_or_lt j cs.length with hle | hgt
      · exact hlast j hle hj
      · exact Or.inl (betaAt_drop_none_of_ge cs j (Nat.le_of_lt hgt))
    unfold parseBeta
    rw [scanBeta_last cs k n hnl hat hlast']
  · intro cs h
    have h' : ∀ k, betaAt (cs.drop k) = none ∨ '\n' ∈ cs.take k := by
      intro k
      rcases le_or_lt k cs.length with hle | hgt
      · exact h k hle
      · exact Or.inl (betaAt_drop_none_of_ge cs k (Nat.le_of_lt hgt))
    unfold parseBeta
    rw [scanBeta_none_of cs h']

/-- Witness for C6 amended: in `"Beta 4 Beta 12"` the last newline-free
occurrence (position 7) wins, yielding 12; in `"Re\nBeta 3"` the only
occurrence lies after a newline, yielding -1. -/
theorem C6_beta_regex_amended_witness :
    parseBeta "Beta 4 Beta 12".data = (12 : Int)
      ∧ parseBeta "Re\nBeta 3".data = -1 :=
  ⟨C6_beta_regex_amended.2.1 "Beta 4 Beta 12".data 7 12 (by decide)
      (by decide) (by decide),
   C6_beta_regex_amended.2.2 "Re\nBeta 3".data (by decide)⟩

/-- C2: for each optional sub-application (RAW player, RAW speed test,
control-panel setup, remote monitoring), if the marker path the code
checks is absent from the filesystem state, that install step returns the
state unchanged and raises no error, creating neither the desktop entry
nor the icon. -/
theorem C2_optional_installs_skip (c : BuildConfig) (fs : PathFS) :
    (rawPlayerMarker ∉ fs → install_raw_player c fs = .ok fs) ∧
    (rawSpeedTestMarker ∉ fs → install_raw_speed_test c fs = .ok fs) ∧
    (panelSetupMarker ∉ fs → install_panel_setup c fs = .ok fs) ∧
    (remoteMonitoringMarker ∉ fs → install_remote_monitoring c fs = .ok fs) := by
  refine ⟨fun h1 => ?_, fun h2 => ?_, fun h3 => ?_, fun h4 => ?_⟩
  · simp [install_raw_player, h1]
  · simp [install_raw_speed_test, h2]
  · simp [install_panel_setup, h3]
  · simp [install_remote_monitoring, h4]

/-- Witness for C2 on the empty filesystem state with the stable build
configuration. -/
theorem C2_optional_installs_skip_witness :
    install_raw_player ⟨false⟩ [] = .ok []
      ∧ install_raw_speed_test ⟨false⟩ [] = .ok []
      ∧ install_panel_setup ⟨false⟩ [] = .ok []
      ∧ install_remote_monitoring ⟨false⟩ [] = .ok [] := by
  have h := C2_optional_installs_skip ⟨false⟩ []
  exact ⟨h.1 (by simp), h.2.1 (by simp), h.2.2.1 (by simp), h.2.2.2 (by simp)⟩

/-- C1 counterexample: a target libs directory already holding
`libglib-2.0.so.0` while the extracted source libs directory is empty.
`remove_conflicting_libraries` runs on the *source* directory and the
copy adds nothing, so the conflicting file is still present in the target
after the install step — refuting the claim for arbitrary initial target
states. -/
theorem C1_counterexample :
    isConflicting "libglib-2.0.so.0" = true
      ∧ (libsStep [] ["libglib-2.0.so.0"]).2 = ["libglib-2.0.so.0"] := by
  constructor
  · decide
  · rfl

/-- C1 amended: the install step removes every conflicting file from the
extracted source libs directory before the copy, so the copy introduces
no conflicting file into the target: any file matching the four patterns
that is present in the target libs directory after the step was already
there before the run (files the target already held are not removed). -/
theorem C1_conflicting_libs_amended (srcLibs tgtLibs : List String)
    (name : String) (hconf : isConflicting name = true) :
    name ∉ remove_conflicting_libraries srcLibs ∧
    (name ∈ (libsStep srcLibs tgtLibs).2 → name ∈ tgtLibs) := by
  have hnot : name ∉ remove_conflicting_libraries srcLibs := by
    intro hmem
    simp only [remove_conflicting_libraries, conflictPatterns, List.foldl_cons,
      List.foldl_nil, List.mem_filter, Bool.not_eq_true'] at hmem
    simp only [isConflicting, conflictPatterns, List.any_cons, List.any_nil,
      Bool.or_false, Bool.or_eq_true] at hconf
    rcases hconf with h | h | h | h <;> simp [h] at hmem
  refine ⟨hnot, fun hmem => ?_⟩
  simp only [libsStep, copyTreeNames] at hmem
  rcases List.mem_append.mp hmem with h | h
  · exact absurd h hnot
  · exact (List.mem_filter.mp h).1

/-- Witness for C1 amended: the source holds `libgio-2.0.so` and an
unrelated library, the target already holds `libgio-2.0.so`. -/
theorem C1_conflicting_libs_amended_witness :
    isConflicting "libgio-2.0.so" = true
      ∧ "libgio-2.0.so" ∉
          remove_conflicting_libraries ["libgio-2.0.so", "libcrypto.so"]
      ∧ ("libgio-2.0.so" ∈
            (libsStep ["libgio-2.0.so", "libcrypto.so"] ["libgio-2.0.so"]).2 →
          "libgio-2.0.so" ∈ ["libgio-2.0.so"]) := by
  have h := C1_conflicting_libs_amended ["libgio-2.0.so", "libcrypto.so"]
    ["libgio-2.0.so"] "libgio-2.0.so" (by decide)
  exact ⟨by decide, h.1, h.2⟩

/-- C3 counterexample: a walk root of mode `0o700` with no children.
`os.walk` only chmods entries *below* its argument, so the root
directory's mode stays `0o700` instead of the claimed
`0o700 | 0o555 | 0o200` — refuting "the mode after the walk equals the
old mode OR-ed with fixed bits" for every directory in the tree. -/
theorem C3_counterexample :
    fix_permissions (FsTree.mk 0o700 [] .nil) = FsTree.mk 0o700 [] .nil
      ∧ (0o700 : Nat) ≠ 0o700 ||| 0o555 ||| 0o200 := by
  constructor
  · rfl
  · decide

mutual
/-- File modes after the walk fixes a non-root directory. -/
theorem fileModesT_fixChild (t : FsTree) :
    fileModesT (fixChild t) =
      (fileModesT t).map (fun m => m ||| 0o444 ||| 0o200) := by
  match t with
  | .mk m fm subs =>
    rw [fixChild, fileModesT, fileModesT, fileModesF_fixForest subs,
      List.map_append]
/-- File modes after the walk fixes a forest. -/
theorem fileModesF_fixForest (ts : FsForest) :
    fileModesF (fixForest ts) =
      (fileModesF ts).map (fun m => m ||| 0o444 ||| 0o200) := by
  match ts with
  | .nil => rfl
  | .cons t ts' =>
    rw [fixForest, fileModesF, fileModesF, fileModesT_fixChild t,
      fileModesF_fixForest ts', List.map_append]
end

mutual
/-- Directory modes after the walk fixes a non-root directory. -/
theorem dirModesT_fixChild (t : FsTree) :
    dirModesT (fixChild t) =
      (dirModesT t).map (fun m => m ||| 0o555 ||| 0o200) := by
  match t with
  | .mk m fm subs =>
    rw [fixChild, dirModesT, dirModesT, dirModesF_fixForest subs,
      List.map_cons]
/-- Directory modes after the walk fixes a forest. -/
theorem dirModesF_fixForest (ts : FsForest) :
    dirModesF (fixForest ts) =
      (dirModesF ts).map (fun m => m ||| 0o555 ||| 0o200) := by
  match ts with
  | .nil => rfl
  | .cons t ts' =>
    rw [fixForest, dirModesF, dirModesF, dirModesT_fixChild t,
      dirModesF_fixForest ts', List.map_append]
end

/-- `Forall₂` respects list append. -/
theorem forall₂_append_parts {α : Type} (R : α → α → Prop) :
    ∀ {l₁ u₁ : List α}, List.Forall₂ R l₁ u₁ → ∀ {l₂ u₂ : List α},
      List.Forall₂ R l₂ u₂ → List.Forall₂ R (l₁ ++ l₂) (u₁ ++ u₂) := by
  intro l₁ u₁ h1
  induction h1 with
  | nil => intro l₂ u₂ h2; simpa using h2
  | cons hab hrest ih => intro l₂ u₂ h2; exact List.Forall₂.cons hab (ih h2)

/-- A list is `Forall₂`-related to its image under a pointwise-related
map. -/
theorem forall₂_self_map {α : Type} (R : α → α → Prop) (f : α → α)
    (h : ∀ a, R a (f a)) : ∀ l : List α, List.Forall₂ R l (l.map f)
  | [] => List.Forall₂.nil
  | a :: l => List.Forall₂.cons (h a) (forall₂_self_map R f h l)

/-- OR-ing in bits never clears a set bit. -/
theorem testBit_mono_lor (m k : Nat) (i : Nat) (h : m.testBit i = true) :
    (m ||| k).testBit i = true := by
  rw [Nat.testBit_or, h, Bool.true_or]

/-- C3 amended: the permission walk is a pure widening, but the walk
root's own directory mode is untouched: every file mode becomes
`old | 0o444 | 0o200`, every directory mode *below the root* becomes
`old | 0o555 | 0o200`, the root directory keeps its mode, and
consequently no permission bit anywhere in the tree is ever cleared. -/
theorem C3_fix_permissions_amended (t : FsTree) :
    rootMode (fix_permissions t) = rootMode t ∧
    fileModesT (fix_permissions t) =
      (fileModesT t).map (fun m => m ||| 0o444 ||| 0o200) ∧
    dirModesBelow (fix_permissions t) =
      (dirModesBelow t).map (fun m => m ||| 0o555 ||| 0o200) ∧
    List.Forall₂ (fun mOld mNew => ∀ i, mOld.testBit i = true →
        mNew.testBit i = true)
      (allModes t) (allModes (fix_permissions t)) := by
  obtain ⟨m, fm, subs⟩ := t
  refine ⟨rfl, ?_, ?_, ?_⟩
  · rw [fix_permissions, fileModesT, fileModesT, fileModesF_fixForest subs,
      List.map_append]
  · rw [fix_permissions, dirModesBelow, dirModesBelow, dirModesF_fixForest subs]
  · rw [allModes, allModes, fix_permissions, dirModesT, dirModesT,
      fileModesT, fileModesT, dirModesF_fixForest subs,
      fileModesF_fixForest subs]
    refine forall₂_append_parts _ (List.Forall₂.cons (fun i h => h) ?_) ?_
    · exact forall₂_self_map _ _ (fun a i h => testBit_mono_lor _ _ i
        (testBit_mono_lor _ _ i h)) _
    · rw [← List.map_append]
      exact forall₂_self_map _ _ (fun a i h => testBit_mono_lor _ _ i
        (testBit_mono_lor _ _ i h)) _

/-- One-step unfolding of `entryExists` at positive fuel. -/
theorem entryExists_succ (fs : LinkFS) (n : Nat) (p : List String) :
    entryExists fs (n + 1) p =
      match fsLookup fs p with
      | none => false
      | some .file => true
      | some .dir => true
      | some (.link t) => entryExists fs n (normJoin p.dropLast t) := rfl

/-- A path with no entry does not exist, at any fuel. -/
theorem entryExists_none (fs : LinkFS) (p : List String)
    (h : fsLookup fs p = none) : ∀ n, entryExists fs n p = false := by
  intro n
  cases n with
  | zero => rfl
  | succ k => rw [entryExists_succ, h]

/-- A link whose (one-hop) resolution is a regular file exists, at fuel
at least two. -/
theorem entryExists_via_link (fs : LinkFS) (p t : List String)
    (hlk : fsLookup fs p = some (.link t))
    (hres : fsLookup fs (normJoin p.dropLast t) = some .file) :
    ∀ n, entryExists fs (n + 2) p = true := by
  intro n
  rw [show n + 2 = (n + 1) + 1 from rfl, entryExists_succ, hlk]
  show entryExists fs (n + 1) (normJoin p.dropLast t) = true
  rw [entryExists_succ, hres]

/-- Lookup after an insertion. -/
theorem fsLookup_insert (p q : List String) (e : FsEntry) (fs : LinkFS) :
    fsLookup (fsInsert p e fs) q = if p = q then some e else fsLookup fs q :=
  rfl

/-- Lookup at the inserted path. -/
theorem fsLookup_insert_self (p : List String) (e : FsEntry) (fs : LinkFS) :
    fsLookup (fsInsert p e fs) p = some e := by
  rw [fsLookup_insert, if_pos rfl]

/-- Lookup at a different path is unchanged by an insertion. -/
theorem fsLookup_insert_ne (p q : List String) (e : FsEntry) (fs : LinkFS)
    (h : p ≠ q) : fsLookup (fsInsert p e fs) q = fsLookup fs q := by
  rw [fsLookup_insert, if_neg h]

/-- Inserting at a vacant path preserves every present entry. -/
theorem fsLookup_preserved_insert (p : List String) (e : FsEntry)
    (fs : LinkFS) (hp : fsLookup fs p = none) :
    ∀ q e', fsLookup fs q = some e' → fsLookup (fsInsert p e fs) q = some e' := by
  intro q e' hq
  by_cases hpq : p = q
  · subst hpq
    rw [hp] at hq
    cases hq
  · rw [fsLookup_insert_ne p q e fs hpq]
    exact hq

/-- `Path.exists` is stable under extending the filesystem with new
entries (every present entry kept as is). -/
theorem entryExists_mono (fs fs' : LinkFS)
    (h : ∀ q e, fsLookup fs q = some e → fsLookup fs' q = some e) :
    ∀ n p, entryExists fs n p = true → entryExists fs' n p = true := by
  intro n
  induction n with
  | zero =>
    intro p hp
    cases hp
  | succ k ih =>
    intro p hp
    rw [entryExists_succ] at hp ⊢
    cases hlk : fsLookup fs p with
    | none => rw [hlk] at hp; cases hp
    | some e =>
      rw [hlk] at hp
      rw [h p e hlk]
      cases e with
      | file => rfl
      | dir => rfl
      | link t => exact ih _ hp

/-- Re-running `mkdir` over directories that all exist is a no-op. -/
theorem mkdirParents_noop : ∀ (fs : LinkFS) (dirs : List (List String)),
    (∀ p ∈ dirs, fsLookup fs p = some .dir) → mkdirParents fs dirs = .ok fs := by
  intro fs dirs
  induction dirs with
  | nil => intro _; rfl
  | cons p rest ih =>
    intro h
    have hp := h p (List.mem_cons_self p rest)
    rw [mkdirParents, hp]
    exact ih (fun q hq => h q (List.mem_cons_of_mem p hq))

/-- The second-link stage of `setup_blackmagic_raw_api`, split out so
partially evaluated goals can be stated. -/
def rawApiStage2 (fs2 : LinkFS) : Except String LinkFS :=
  match (if entryExists fs2 40 symlink2Path then Except.ok fs2
         else symlinkTo fs2 symlink2Path libSourceNestedRel) with
  | .error e => .error e
  | .ok fs3 => .ok fs3

/-- Unfolding of `setup_blackmagic_raw_api` when the directory chain is
already in place. -/
theorem setup_raw_api_unfold (fs : LinkFS)
    (hmk : mkdirParents fs rawApiDirs = .ok fs) :
    setup_blackmagic_raw_api fs =
      match (if entryExists fs 40 symlink1Path then Except.ok fs
             else symlinkTo fs symlink1Path libSourceRel) with
      | .error e => .error e
      | .ok fs2 => rawApiStage2 fs2 := by
  unfold setup_blackmagic_raw_api rawApiStage2
  rw [hmk]

/-- C4 counterexample: a filesystem where `/app/bin/libBlackmagicRawAPI.so`
is already a (dangling) symlink and the library file is absent.
`Path.exists()` follows the link and reports `False`, so the step does
not skip: `symlink_to` then raises `FileExistsError` — refuting "for
every filesystem state in which a link already exists at one of the two
link paths, the step skips creating that link and does not fail". -/
theorem C4_counterexample :
    fsLookup [(["app"], FsEntry.dir), (["app", "bin"], FsEntry.dir),
        (symlink1Path, FsEntry.link libSourceRel)] symlink1Path
      = some (FsEntry.link libSourceRel)
      ∧ setup_blackmagic_raw_api
          [(["app"], FsEntry.dir), (["app", "bin"], FsEntry.dir),
           (symlink1Path, FsEntry.link libSourceRel)]
        = .error "FileExistsError: symlink" := by
  constructor
  · rfl
  · rfl

/-- C4 amended: provided the directory chain is in place, the API
library file exists under `libs` (so links to it resolve), and any entry
already present at a link path is reported by `Path.exists()` — the
condition the dangling-link counterexample violates — the step succeeds,
preserves whatever entry already occupied a link path (skipping creation
there), and running it twice gives the same state as running it once. -/
theorem C4_raw_api_symlinks_amended (fs : LinkFS)
    (hd : ∀ p ∈ rawApiDirs, fsLookup fs p = some FsEntry.dir)
    (hlib : fsLookup fs rawApiLibPath = some FsEntry.file)
    (hs1 : fsLookup fs symlink1Path = none
      ∨ entryExists fs 40 symlink1Path = true)
    (hs2 : fsLookup fs symlink2Path = none
      ∨ entryExists fs 40 symlink2Path = true) :
    ∃ fs', setup_blackmagic_raw_api fs = .ok fs'
      ∧ setup_blackmagic_raw_api fs' = .ok fs'
      ∧ (∀ e, fsLookup fs symlink1Path = some e →
          fsLookup fs' symlink1Path = some e)
      ∧ (∀ e, fsLookup fs symlink2Path = some e →
          fsLookup fs' symlink2Path = some e) := by
  have hmk : mkdirParents fs rawApiDirs = .ok fs := mkdirParents_noop fs _ hd
  rcases hs1 with h1 | h1 <;> rcases hs2 with h2 | h2
  · -- both link paths vacant: both links are created
    set fs1 := fsInsert symlink1Path (.link libSourceRel) fs with hfs1
    have pres1 : ∀ q e, fsLookup fs q = some e → fsLookup fs1 q = some e :=
      fsLookup_preserved_insert _ _ fs h1
    have h2' : fsLookup fs1 symlink2Path = none := by
      rw [hfs1, fsLookup_insert_ne _ _ _ _ (by decide)]
      exact h2
    set fs2 := fsInsert symlink2Path (.link libSourceNestedRel) fs1 with hfs2
    have pres2 : ∀ q e, fsLookup fs1 q = some e → fsLookup fs2 q = some e :=
      fsLookup_preserved_insert _ _ fs1 h2'
    have hd2 : ∀ p ∈ rawApiDirs, fsLookup fs2 p = some FsEntry.dir :=
      fun p hp => pres2 p _ (pres1 p _ (hd p hp))
    have hlib2 : fsLookup fs2 rawApiLibPath = some FsEntry.file :=
      pres2 _ _ (pres1 _ _ hlib)
    have hlk1 : fsLookup fs2 symlink1Path = some (.link libSourceRel) := by
      rw [hfs2, fsLookup_insert_ne _ _ _ _ (by decide), hfs1,
        fsLookup_insert_self]
    have hlk2 : fsLookup fs2 symlink2Path = some (.link libSourceNestedRel) := by
      rw [hfs2, fsLookup_insert_self]
    have hex1' : entryExists fs2 40 symlink1Path = true := by
      refine entryExists_via_link fs2 _ _ hlk1 ?_ 38
      rw [show normJoin symlink1Path.dropLast libSourceRel = rawApiLibPath
        from rfl]
      exact hlib2
    have hex2' : entryExists fs2 40 symlink2Path = true := by
      refine entryExists_via_link fs2 _ _ hlk2 ?_ 38
      rw [show normJoin symlink2Path.dropLast libSourceNestedRel = rawApiLibPath
        from rfl]
      exact hlib2
    refine ⟨fs2, ?_, ?_, ?_, ?_⟩
    · rw [setup_raw_api_unfold fs hmk, entryExists_none fs _ h1 40,
        show symlinkTo fs symlink1Path libSourceRel = Except.ok fs1 from by
          unfold symlinkTo; rw [h1]]
      show rawApiStage2 fs1 = Except.ok fs2
      unfold rawApiStage2
      rw [entryExists_none fs1 _ h2' 40,
        show symlinkTo fs1 symlink2Path libSourceNestedRel = Except.ok fs2 from by
          unfold symlinkTo; rw [h2']]
      rfl
    · rw [setup_raw_api_unfold fs2 (mkdirParents_noop fs2 _ hd2), hex1']
      show rawApiStage2 fs2 = Except.ok fs2
      unfold rawApiStage2
      rw [hex2']
      rfl
    · intro e he
      rw [h1] at he
      cases he
    · intro e he
      rw [h2] at he
      cases he
  · -- first link path vacant, second already exists
    set fs1 := fsInsert symlink1Path (.link libSourceRel) fs with hfs1
    have pres1 : ∀ q e, fsLookup fs q = some e → fsLookup fs1 q = some e :=
      fsLookup_preserved_insert _ _ fs h1
    have hd1 : ∀ p ∈ rawApiDirs, fsLookup fs1 p = some FsEntry.dir :=
      fun p hp => pres1 p _ (hd p hp)
    have hlib1 : fsLookup fs1 rawApiLibPath = some FsEntry.file :=
      pres1 _ _ hlib
    have hlk1 : fsLookup fs1 symlink1Path = some (.link libSourceRel) := by
      rw [hfs1, fsLookup_insert_self]
    have hex1' : entryExists fs1 40 symlink1Path = true := by
      refine entryExists_via_link fs1 _ _ hlk1 ?_ 38
      rw [show normJoin symlink1Path.dropLast libSourceRel = rawApiLibPath
        from rfl]
      exact hlib1
    have hex2' : entryExists fs1 40 symlink2Path = true :=
      entryExists_mono fs fs1 pres1 40 _ h2
    refine ⟨fs1, ?_, ?_, ?_, ?_⟩
    · rw [setup_raw_api_unfold fs hmk, entryExists_none fs _ h1 40,
        show symlinkTo fs symlink1Path libSourceRel = Except.ok fs1 from by
          unfold symlinkTo; rw [h1]]
      show rawApiStage2 fs1 = Except.ok fs1
      unfold rawApiStage2
      rw [hex2']
      rfl
    · rw [setup_raw_api_unfold fs1 (mkdirParents_noop fs1 _ hd1), hex1']
      show rawApiStage2 fs1 = Except.ok fs1
      unfold rawApiStage2
      rw [hex2']
      rfl
    · intro e he
      rw [h1] at he
      cases he
    · intro e he
      rw [hfs1, fsLookup_insert_ne _ _ _ _ (by decide)]
      exact he
  · -- first link already exists, second link path vacant
    set fs1 := fsInsert symlink2Path (.link libSourceNestedRel) fs with hfs1
    have pres1 : ∀ q e, fsLookup fs q = some e → fsLookup fs1 q = some e :=
      fsLookup_preserved_insert _ _ fs h2
    have hd1 : ∀ p ∈ rawApiDirs, fsLookup fs1 p = some FsEntry.dir :=
      fun p hp => pres1 p _ (hd p hp)
    have hlib1 : fsLookup fs1 rawApiLibPath = some FsEntry.file :=
      pres1 _ _ hlib
    have hlk2 : fsLookup fs1 symlink2Path = some (.link libSourceNestedRel) := by
      rw [hfs1, fsLookup_insert_self]
    have hex1' : entryExists fs1 40 symlink1Path = true :=
      entryExists_mono fs fs1 pres1 40 _ h1
    have hex2' : entryExists fs1 40 symlink2Path = true := by
      refine entryExists_via_link fs1 _ _ hlk2 ?_ 38
      rw [show normJoin symlink2Path.dropLast libSourceNestedRel = rawApiLibPath
        from rfl]
      exact hlib1
    refine ⟨fs1, ?_, ?_, ?_, ?_⟩
    · rw [setup_raw_api_unfold fs hmk, h1]
      show rawApiStage2 fs = Except.ok fs1
      unfold rawApiStage2
      rw [entryExists_none fs _ h2 40,
        show symlinkTo fs symlink2Path libSourceNestedRel = Except.ok fs1 from by
          unfold symlinkTo; rw [h2]]
      rfl
    · rw [setup_raw_api_unfold fs1 (mkdirParents_noop fs1 _ hd1), hex1']
      show rawApiStage2 fs1 = Except.ok fs1
      unfold rawApiStage2
      rw [hex2']
      rfl
    · intro e he
      rw [hfs1, fsLookup_insert_ne _ _ _ _ (by decide)]
      exact he
    · intro e he
      rw [h2] at he
      cases he
  · -- both links already exist: the run changes nothing
    refine ⟨fs, ?_, ?_, fun e he => he, fun e he => he⟩
    · rw [setup_raw_api_unfold fs hmk, h1]
      show rawApiStage2 fs = Except.ok fs
      unfold rawApiStage2
      rw [h2]
      rfl
    · rw [setup_raw_api_unfold fs hmk, h1]
      show rawApiStage2 fs = Except.ok fs
      unfold rawApiStage2
      rw [h2]
      rfl

/-- Witness for C4 amended: the directory chain and the API library file
exist, both link paths vacant. -/
theorem C4_raw_api_symlinks_amended_witness :
    ∃ fs', setup_blackmagic_raw_api
        [(["app"], FsEntry.dir), (["app", "bin"], FsEntry.dir),
         (["app", "bin", "BlackmagicRawAPI"], FsEntry.dir),
         (rawApiLibPath, FsEntry.file)] = .ok fs'
      ∧ setup_blackmagic_raw_api fs' = .ok fs'
      ∧ (∀ e, fsLookup [(["app"], FsEntry.dir), (["app", "bin"], FsEntry.dir),
            (["app", "bin", "BlackmagicRawAPI"], FsEntry.dir),
            (rawApiLibPath, FsEntry.file)] symlink1Path = some e →
          fsLookup fs' symlink1Path = some e)
      ∧ (∀ e, fsLookup [(["app"], FsEntry.dir), (["app", "bin"], FsEntry.dir),
            (["app", "bin", "BlackmagicRawAPI"], FsEntry.dir),
            (rawApiLibPath, FsEntry.file)] symlink2Path = some e →
          fsLookup fs' symlink2Path = some e) :=
  C4_raw_api_symlinks_amended _ (by decide) (by decide)
    (Or.inl (by decide)) (Or.inl (by decide))

/-- C7 counterexample: a catalog entry whose date string does not parse
but whose `urls` carry an *empty* `Linux` list.  The loop reaches
`download["urls"]["Linux"][0]` before looking at the date and raises an
`IndexError` that aborts the whole run — refuting "the entry is excluded
and the run continues" for every entry with an unparseable date. -/
theorem C7_counterexample :
    parseDateIso "Not A Date" = none
      ∧ metainfoLoop [Download.mk (some []) "notes" "Not A Date"] "" ""
          = .error "IndexError: list index out of range"
      ∧ build_metainfo [Download.mk (some []) "notes" "Not A Date"]
          "template" = .error "IndexError: list index out of range" :=
  ⟨rfl, rfl, rfl⟩

/-- C7 amended: every "DD Mon YYYY" date string is formatted to
ISO-8601 `YYYY-MM-DD` (in particular "15 Mar 2024" becomes "2024-03-15"),
and an entry whose date fails to parse is excluded from the loop while
processing continues — provided the entry's `Linux` download list, when
the key is present, is non-empty (an entry with an empty list aborts the
run with an index error before the date is examined). -/
theorem C7_date_format_and_skip_amended :
    parseDateIso "15 Mar 2024" = some "2024-03-15"
      ∧ (∀ y m d : Nat, 1 ≤ y → y ≤ 9999 → 1 ≤ m → m ≤ 12 → 1 ≤ d →
          d ≤ daysInMonth m y →
          parseDateIso (renderDMY d m y) = some (formatIso y m d))
      ∧ (∀ (dl : Download) (rest : List Download) (ld rel : String),
          dl.urlsLinux ≠ some [] → parseDateIso dl.date = none →
          metainfoLoop (dl :: rest) ld rel = metainfoLoop rest ld rel) := by
  refine ⟨rfl, ?_, ?_⟩
  · intro y m d hy1 hy2 hm1 hm2 hd1 hdm
    unfold parseDateIso
    rw [strptimeDMY_render y m d hy1 hy2 hm1 hm2 hd1 hdm]
  · intro dl rest ld rel hurls hdate
    have hskip : survivesFilter dl = false := by
      obtain ⟨urls, desc, date⟩ := dl
      match urls with
      | none => rfl
      | some [] => rfl
      | some (linux :: tail) =>
        dsimp only at hdate
        simp [survivesFilter, hdate]
    exact metainfoLoop_skip dl rest ld rel hurls hskip

/-- Witness for C7 amended: the leap day "29 Feb 2024", and a skipped
entry with Linux download but unparseable date "32 Mar 2024". -/
theorem C7_date_format_and_skip_amended_witness :
    parseDateIso (renderDMY 29 2 2024) = some (formatIso 2024 2 29)
      ∧ metainfoLoop
          [Download.mk
            (some [LinuxDownload.mk (some "davinci-resolve") 19 1 4 102 0
              "DaVinci Resolve 19.1.4"]) "notes" "32 Mar 2024"] "a" "b"
        = metainfoLoop [] "a" "b" :=
  ⟨C7_date_format_and_skip_amended.2.1 2024 2 29 (by decide) (by decide)
      (by decide) (by decide) (by decide) (by decide),
   C7_date_format_and_skip_amended.2.2 _ [] "a" "b" (by decide) rfl⟩

/-- C8 counterexample: a catalog whose single entry has an empty `Linux`
download list.  Zero entries survive filtering, yet `build_metainfo`
fails with an `IndexError` instead of writing a document with an empty
release list — refuting the claim for every catalog with zero survivors. -/
theorem C8_counterexample :
    (∀ d ∈ [Download.mk (some []) "notes" "01 Jan 2024"],
      survivesFilter d = false)
      ∧ build_metainfo [Download.mk (some []) "notes" "01 Jan 2024"]
          "<releases>$\x7bRELEASES\x7d</releases>"
        = .error "IndexError: list index out of range" := by
  constructor
  · decide
  · rfl

/-- C8 amended: for every catalog in which zero entries survive filtering
*and* no entry carries an empty `Linux` download list, `build_metainfo`
still produces the output document, with both the RELEASES and the
DESCRIPTION placeholders substituted by the empty string, and the
operation succeeds. -/
theorem C8_empty_release_list_amended (downloads : List Download)
    (tpl : String)
    (h : ∀ d ∈ downloads, d.urlsLinux ≠ some [] ∧ survivesFilter d = false) :
    build_metainfo downloads tpl = .ok (safe_substitute tpl "" "") := by
  unfold build_metainfo
  rw [metainfoLoop_all_skip downloads "" "" h]

/-- Witness for C8 amended: one entry with no Linux key and one whose
product tag differs; the placeholders of a concrete template are
substituted by empty strings. -/
theorem C8_empty_release_list_amended_witness :
    build_metainfo
        [Download.mk none "n1" "01 Jan 2024",
         Download.mk (some [LinuxDownload.mk (some "fusion-studio") 19 1 4
           102 0 "Fusion"]) "n2" "02 Jan 2024"]
        "<r>$\x7bRELEASES\x7d</r><d>$\x7bDESCRIPTION\x7d</d>"
      = .ok "<r></r><d></d>" := by
  have h := C8_empty_release_list_amended
    [Download.mk none "n1" "01 Jan 2024",
     Download.mk (some [LinuxDownload.mk (some "fusion-studio") 19 1 4
       102 0 "Fusion"]) "n2" "02 Jan 2024"]
    "<r>$\x7bRELEASES\x7d</r><d>$\x7bDESCRIPTION\x7d</d>" (by decide)
  rw [h]
  rfl

/-- C9 counterexample: two surviving entries, the first with an *empty*
description.  The truthiness check `if not latest_description` skips the
empty string, so the substituted description is the second survivor's,
not the first's — refuting "the description text of the first surviving
entry" for every catalog. -/
theorem C9_counterexample :
    survivesFilter (Download.mk
        (some [LinuxDownload.mk (some "davinci-resolve") 19 1 4 102 0
          "DaVinci Resolve 19.1.4"]) "" "15 Mar 2024") = true
      ∧ (Download.mk
          (some [LinuxDownload.mk (some "davinci-resolve") 19 1 4 102 0
            "DaVinci Resolve 19.1.4"]) "" "15 Mar 2024").desc = ""
      ∧ (metainfoLoop
          [Download.mk
            (some [LinuxDownload.mk (some "davinci-resolve") 19 1 4 102 0
              "DaVinci Resolve 19.1.4"]) "" "15 Mar 2024",
           Download.mk
            (some [LinuxDownload.mk (some "davinci-resolve") 19 1 4 102 0
              "DaVinci Resolve 19.1.4"]) "Second changelog" "01 Mar 2024"]
          "" "").map Prod.fst = .ok "Second changelog"
      ∧ "Second changelog" ≠ "" :=
  ⟨rfl, rfl, rfl, by decide⟩

/-- C9 amended: for every catalog without empty `Linux` download lists,
the value substituted for the DESCRIPTION placeholder is the description
of the first surviving entry *whose description is non-empty* (the code's
truthiness check skips over empty descriptions; the empty string is
substituted when every surviving description is empty). -/
theorem C9_description_amended (downloads : List Download) (tpl : String)
    (h : ∀ d ∈ downloads, d.urlsLinux ≠ some []) :
    ∃ rel, metainfoLoop downloads "" ""
        = .ok (firstNonEmpty (survivingDescs downloads), rel)
      ∧ build_metainfo downloads tpl
        = .ok (safe_substitute tpl (firstNonEmpty (survivingDescs downloads))
            rel) := by
  obtain ⟨⟨pd, prel⟩, hloop, hdesc⟩ := metainfoLoop_desc downloads "" "" h
  rw [if_pos rfl] at hdesc
  dsimp only at hdesc
  subst hdesc
  refine ⟨prel, hloop, ?_⟩
  unfold build_metainfo
  rw [hloop]

/-- Witness for C9 amended: a catalog whose first survivor has an empty
description and whose second survivor's description is taken. -/
theorem C9_description_amended_witness :
    ∃ rel, metainfoLoop
        [Download.mk
          (some [LinuxDownload.mk (some "davinci-resolve") 19 1 4 102 0
            "DaVinci Resolve 19.1.4"]) "" "15 Mar 2024",
         Download.mk
          (some [LinuxDownload.mk (some "davinci-resolve") 19 1 4 102 0
            "DaVinci Resolve 19.1.4"]) "Latest changelog" "01 Mar 2024"]
        "" ""
        = .ok (firstNonEmpty (survivingDescs
            [Download.mk
              (some [LinuxDownload.mk (some "davinci-resolve") 19 1 4 102 0
                "DaVinci Resolve 19.1.4"]) "" "15 Mar 2024",
             Download.mk
              (some [LinuxDownload.mk (some "davinci-resolve") 19 1 4 102 0
                "DaVinci Resolve 19.1.4"]) "Latest changelog" "01 Mar 2024"]),
            rel)
      ∧ build_metainfo
          [Download.mk
            (some [LinuxDownload.mk (some "davinci-resolve") 19 1 4 102 0
              "DaVinci Resolve 19.1.4"]) "" "15 Mar 2024",
           Download.mk
            (some [LinuxDownload.mk (some "davinci-resolve") 19 1 4 102 0
              "DaVinci Resolve 19.1.4"]) "Latest changelog" "01 Mar 2024"]
          "$\x7bDESCRIPTION\x7d"
        = .ok (safe_substitute "$\x7bDESCRIPTION\x7d"
            (firstNonEmpty (survivingDescs
              [Download.mk
                (some [LinuxDownload.mk (some "davinci-resolve") 19 1 4 102 0
                  "DaVinci Resolve 19.1.4"]) "" "15 Mar 2024",
               Download.mk
                (some [LinuxDownload.mk (some "davinci-resolve") 19 1 4 102 0
                  "DaVinci Resolve 19.1.4"]) "Latest changelog" "01 Mar 2024"]))
            rel) :=
  C9_description_amended _ _ (by decide)

end ResolveBuilder
